import Mathlib

/-!
Verification of the extraction/normalization pipeline of the
crypto-sanctions-list repository.

The repository consists of several near-duplicate revisions of one
extract-transform-load script.  Each revision is shallowly embedded here in
its own namespace:

* `US1`  : `src/scripts/update-sanctions.js`, the revision before the
           document separator (lines 1-169) — the primary script.
* `US2`  : `src/scripts/update-sanctions.js`, the revision after the
           separator (lines 169-288); only its program-resolution logic is
           needed by the claims.
* `P1`   : `src/unnamed/part_001` — the revision that accumulates an
           `entries` list per address.
* `P2v4` : `src/unnamed/part_002`, fourth sub-document (lines 441-624) —
           the `ensureArray` revision with case-insensitive classification.
* `P3`   : `src/unnamed/part_003` — the `safeGet` revision with the fatal
           structure check.

JavaScript semantics relevant to the claims is made explicit:
string falsiness (`"" || d`), optional chaining, `Array.isArray`
normalization, object-key assignment (insert-or-overwrite preserving
position), exceptions thrown by calling `.toLowerCase()`/`.includes()` on a
number (values produced by the parsers' `parseTagValue: true`), and the
parsers' `trimValues: true` (modelled as an explicit trimming pass over the
document before the entry loop).
-/

/-- An XML text value as produced by fast-xml-parser with
`parseTagValue: true`: either a string or a parsed number. -/
inductive JVal where
  | s (v : String)
  | n (v : Int)
deriving DecidableEq, Repr

/-- JS `x || d` where `x` is an optional string: `undefined` and the empty
string are falsy. -/
def jsOr (x : Option String) (d : String) : String :=
  match x with
  | none => d
  | some v => if v = "" then d else v

/-- JS `x || d` where `x` is a (present) string. -/
def jsOrS (x d : String) : String :=
  if x = "" then d else x

/-- JS truthiness of an optional string. -/
def jsTruthy (x : Option String) : Bool :=
  match x with
  | none => false
  | some v => v ≠ ""

/-- JS `String.prototype.toLowerCase` (ASCII, as applied to the address and
type-label strings of the SDN document). -/
def jsLower (s : String) : String :=
  ⟨s.data.map Char.toLower⟩

/-- Whitespace characters trimmed by the XML parsers and by JS `trim`. -/
def isWs (c : Char) : Bool :=
  c = ' ' || c = '\t' || c = '\n' || c = '\r'

/-- Drop leading and trailing whitespace from a character list. -/
def trimChars (l : List Char) : List Char :=
  ((l.dropWhile isWs).reverse.dropWhile isWs).reverse

/-- JS `String.prototype.trim` / fast-xml-parser `trimValues`. -/
def jsTrim (s : String) : String :=
  ⟨trimChars s.data⟩

/-- Does the character list `pre` lead (start) the second list? -/
def leadsList : List Char → List Char → Bool
  | [], _ => true
  | _ :: _, [] => false
  | a :: as, b :: bs => a = b && leadsList as bs

/-- Is the first character list a contiguous sub-list of the second? -/
def subOf (needle : List Char) : List Char → Bool
  | [] => needle.isEmpty
  | c :: cs => leadsList needle (c :: cs) || subOf needle cs

/-- JS `String.prototype.includes`. -/
def strIncludes (hay needle : String) : Bool :=
  subOf needle.data hay.data

/-- Case-insensitive substring containment (the needle is given in lower
case): `hay.toLowerCase().includes(needle)`. -/
def strIncludesCI (hay needle : String) : Bool :=
  strIncludes (jsLower hay) needle

/-- JS `Array.prototype.join(', ')`. -/
def joinComma : List String → String
  | [] => ""
  | [x] => x
  | x :: y :: rest => x ++ ", " ++ joinComma (y :: rest)

/-- A value that is either a single XML node or a list of nodes (the parse
result when no `isArray` hint forces an array). -/
inductive ArrOr (α : Type) where
  | one (a : α)
  | many (l : List α)
deriving DecidableEq, Repr

/-- The `ensureArray` helper of part_002 (fourth sub-document): `undefined`
becomes `[]`, a scalar becomes a one-element array, an array is kept. -/
def ensureArr {α : Type} : Option (ArrOr α) → List α
  | none => []
  | some (.one a) => [a]
  | some (.many l) => l

/-- Map a function over an `ArrOr`. -/
def arrOrMap {α β : Type} (f : α → β) : ArrOr α → ArrOr β
  | .one a => .one (f a)
  | .many l => .many (l.map f)

/-- JS `Array.isArray(x) ? x : [x]` for a present value. -/
def arrOrToList {α : Type} : ArrOr α → List α
  | .one a => [a]
  | .many l => l

/-- A JS object used as a string-keyed map, in insertion order. -/
abbrev JMap (α : Type) : Type := List (String × α)

/-- The keys of a JS object, in insertion order (`Object.keys`). -/
def alKeys {α : Type} (m : JMap α) : List String :=
  m.map Prod.fst

/-- Property lookup on a JS object. -/
def alookup {α : Type} : JMap α → String → Option α
  | [], _ => none
  | (k', v) :: rest, k => if k' = k then some v else alookup rest k

/-- JS assignment `m[k] = v` on an object (whose keys are unique): an
existing key keeps its position and gets the new value, a new key is
appended. -/
def insertJS {α : Type} : JMap α → String → α → JMap α
  | [], k, v => [(k, v)]
  | (k₁, v₁) :: rest, k, v =>
    if k₁ = k then (k, v) :: rest else (k₁, v₁) :: insertJS rest k v

/-- Fold a sequence of (key, value) assignments into a JS object. -/
def foldIns {α : Type} (m : JMap α) (l : List (String × α)) : JMap α :=
  l.foldl (fun m p => insertJS m p.1 p.2) m

/-- Perform an optional assignment: the effect of one loop iteration on
the object, given the candidate it accepted (if any). -/
def insCand {α : Type} (m : JMap α) : Option (String × α) → JMap α
  | some p => insertJS m p.1 p.2
  | none => m

/-- The last binding for `k` in a list of assignments, if any. -/
def lastLookup {α : Type} (l : List (String × α)) (k : String) : Option α :=
  alookup l.reverse k

/-- State-passing fold in which the step function may throw, keeping the
partial state accumulated so far (JS mutation inside a `try` block). -/
def foldT {σ α : Type} (f : σ → α → Except σ σ) : σ → List α → Except σ σ
  | s, [] => .ok s
  | s, a :: as =>
    match f s a with
    | .ok s' => foldT f s' as
    | .error s' => .error s'

/-- The state after a `try { ... } catch { ... }` whose catch block keeps
the state of the throw point. -/
def catchSt {σ : Type} : Except σ σ → σ
  | .ok s => s
  | .error s => s

/-- Process exit code of the top-level `.then(exit 0)/.catch(exit 1)`
runner. -/
def exitCode {ε α : Type} : Except ε α → Nat
  | .ok _ => 0
  | .error _ => 1

/-- Output snapshot metadata (`sanctionsData.metadata`). -/
structure Meta where
  lastUpdated : String
  source : String
  totalAddresses : Nat
  url : String
deriving DecidableEq, Repr

/-- Output snapshot (`sanctionsData`), parameterized by the per-variant
address-record type. -/
structure Snapshot (α : Type) where
  metadata : Meta
  addresses : JMap α
deriving DecidableEq, Repr

/-- The fixed source URL. -/
def sdnUrl : String := "https://www.treasury.gov/ofac/downloads/sdn.xml"

namespace US1

/-- One `<id>` node of an SDN entry, as parsed by
`scripts/update-sanctions.js` (first revision): `parseTagValue: true` can
turn either field into a number. -/
structure SdnId where
  idType : Option JVal
  idNumber : Option JVal
deriving DecidableEq, Repr

/-- One `<sdnEntry>` as parsed by the first revision of
`scripts/update-sanctions.js`.  Its parser forces `sdnEntry`, `id` and
`program` to arrays (`isArray`), so `programList?.program` and `idList?.id`
are lists whenever present. -/
structure Entry where
  uid : Int
  firstName : Option String
  lastName : Option String
  programList : Option (List String)
  idList : Option (List SdnId)
deriving DecidableEq, Repr

/-- `trimValues: true` applied to an id node. -/
def trimId (i : SdnId) : SdnId where
  idType := i.idType.map (fun v => match v with | .s t => .s (jsTrim t) | .n k => .n k)
  idNumber := i.idNumber.map (fun v => match v with | .s t => .s (jsTrim t) | .n k => .n k)

/-- `trimValues: true` applied to an entry. -/
def trimEntry (e : Entry) : Entry where
  uid := e.uid
  firstName := e.firstName.map jsTrim
  lastName := e.lastName.map jsTrim
  programList := e.programList.map (fun l => l.map jsTrim)
  idList := e.idList.map (fun l => l.map trimId)

/-- Line 64-66: `entry.firstName ? firstName + ' ' + (lastName || '') :
(lastName || 'Unknown Entity')`. -/
def entityName (e : Entry) : String :=
  if jsTruthy e.firstName then
    (e.firstName.getD "") ++ " " ++ jsOr e.lastName ""
  else
    jsOr e.lastName "Unknown Entity"

/-- Line 70: the classification test `id?.idType?.includes('Digital
Currency')` on a string type-label (case-sensitive). -/
def isDigital (t : String) : Bool :=
  strIncludes t "Digital Currency"

/-- The address record stored by line 86-91 (object literal with exactly
the keys `entity`, `program`, `type`, `uid`). -/
structure Record where
  entity : String
  program : String
  type : String
  uid : Int
deriving DecidableEq, Repr

/-- The JSON keys of the record object literal of line 86-91, in source
order. -/
def Record.keys : List String :=
  ["entity", "program", "type", "uid"]

/-- Line 86-91: construct the record for an accepted candidate. -/
def mkRecord (e : Entry) (t : String) : Record where
  entity := jsTrim (entityName e)
  program := joinComma (e.programList.getD [])
  type := t
  uid := e.uid

/-- Mutable state of `fetchAndParseSDNList` (the diagnostic
`digitalCurrencyTypes`, `addressesByType` and `missingAddresses`
collections and the console log are omitted; `errorLog` records the entry
counter values at which the per-entry catch block fired). -/
structure St where
  addresses : JMap Record
  processed : Nat
  totalDC : Nat
  found : Nat
  errorLog : List Nat
deriving DecidableEq, Repr

/-- The initial state (lines 49-53). -/
def initSt : St where
  addresses := []
  processed := 0
  totalDC := 0
  found := 0
  errorLog := []

/-- Lines 69-92, body of the id loop.  Calling `.includes` on a numeric
`idType`, or `.toLowerCase()` on a truthy numeric `idNumber`, throws
(`Except.error` carries the state at the throw point). -/
def procId (e : Entry) (s : St) (i : SdnId) : Except St St :=
  match i.idType with
  | none => .ok s
  | some (.n _) => .error s
  | some (.s t) =>
    if isDigital t then
      let s1 : St := { s with totalDC := s.totalDC + 1 }
      match i.idNumber with
      | some (.n k) => if k = 0 then .ok s1 else .error s1
      | none => .ok s1
      | some (.s v) =>
        let addr := jsLower v
        if addr = "" ∨ addr.length < 10 then .ok s1
        else
          .ok { s1 with
                found := s1.found + 1,
                addresses := insertJS s1.addresses addr (mkRecord e t) }
    else .ok s

/-- Lines 59-101, body of the entry loop: bump the counter, then run the
id loop inside `try`; the catch block logs and continues. -/
def procEntry (s : St) (e : Entry) : St :=
  let s1 : St := { s with processed := s.processed + 1 }
  match foldT (procId e) s1 (e.idList.getD []) with
  | .ok s2 => s2
  | .error s2 => { s2 with errorLog := s2.errorLog ++ [s1.processed] }

/-- The entry loop over the trimmed document (the parser is configured
with `trimValues: true`). -/
def run (d : List Entry) : St :=
  (d.map trimEntry).foldl procEntry initSt

/-- The parse result shape around the entry list: `result?.sdnList?.sdnEntry`. -/
structure Node1 where
  sdnEntry : Option (List Entry)
deriving DecidableEq, Repr

/-- The parsed document root. -/
structure Xml1 where
  sdnList : Option Node1
deriving DecidableEq, Repr

/-- Line 46: `result?.sdnList?.sdnEntry || []`. -/
def entriesOf (px : Xml1) : List Entry :=
  ((px.sdnList.bind Node1.sdnEntry).getD [])

/-- `fetchAndParseSDNList` after parsing: the state produced from a parsed
document. -/
def runDoc (px : Xml1) : St :=
  run (entriesOf px)

/-- Lines 138-146: the snapshot built by `updateSanctionsList`, with the
run timestamp `t` standing for `new Date().toISOString()`. -/
def updateSnap (px : Xml1) (t : String) : Snapshot Record where
  metadata :=
    { lastUpdated := t
      source := "OFAC SDN List"
      totalAddresses := (alKeys (runDoc px).addresses).length
      url := sdnUrl }
  addresses := (runDoc px).addresses

/-- Lines 134-159: `updateSanctionsList` never fails after a successful
parse — the snapshot is always produced and handed to the writer. -/
def update (px : Xml1) (t : String) : Except String (Snapshot Record) :=
  .ok (updateSnap px t)

end US1

namespace US2

/-- `src/scripts/update-sanctions.js`, revision after the separator, line
198-199: `const programString = Array.isArray(programs) ? programs.join(', ')
: programs;` where `programs = entry.programList?.program` (this revision's
parser has no `isArray` hint, so the field may be a scalar). -/
def programString : Option (ArrOr String) → Option String
  | none => none
  | some (.one s) => some s
  | some (.many l) => some (joinComma l)

/-- Line 212: the stored `program` field, `programString || 'Not
specified'`. -/
def programResolved (p : Option (ArrOr String)) : String :=
  jsOr (programString p) "Not specified"

end US2

namespace P1

/-- One `<id>` node as parsed by part_001 (`parseTagValue: false`, so
values stay strings; we keep `JVal` for uniformity — the guard at line 79
and the `String()` coercion at line 90 handle non-strings without
throwing). -/
structure SdnId where
  idType : Option JVal
  idNumber : Option JVal
deriving DecidableEq, Repr

/-- One `<aka>` node (lines 72-75). -/
structure Aka where
  firstName : Option String
  lastName : Option String
deriving DecidableEq, Repr

/-- One `<sdnEntry>` as parsed by part_001; its parser forces `sdnEntry`,
`id`, `program` and `aka` to arrays. -/
structure Entry where
  uid : Int
  firstName : Option String
  lastName : Option String
  programList : Option (List String)
  akaList : Option (List Aka)
  idList : Option (List SdnId)
deriving DecidableEq, Repr

/-- Lines 67-69: same display-name template as US1. -/
def entityName (e : Entry) : String :=
  if jsTruthy e.firstName then
    (e.firstName.getD "") ++ " " ++ jsOr e.lastName ""
  else
    jsOr e.lastName "Unknown Entity"

/-- Lines 73-75: `akas.map(aka => aka.firstName ? firstName + ' ' +
(lastName || '') : aka.lastName).filter(Boolean)`. -/
def akaName (a : Aka) : Option String :=
  if jsTruthy a.firstName then
    some ((a.firstName.getD "") ++ " " ++ jsOr a.lastName "")
  else
    match a.lastName with
    | none => none
    | some l => if l = "" then none else some l

/-- The filtered alternate-name list of an entry. -/
def akaNames (e : Entry) : List String :=
  (e.akaList.getD []).filterMap akaName

/-- Lines 86-91: the normalized address string; a numeric `idNumber` is
coerced with `String()` instead of throwing. -/
def addrOfNumber : Option JVal → String
  | none => ""
  | some (.s v) => jsLower v
  | some (.n k) => jsLower (toString k)

/-- Lines 98-108: the per-entity detail object pushed onto `entries` (the
source omits the `akas` key entirely when the list is empty; here it is an
always-present list). -/
structure Detail where
  entity : String
  program : String
  type : String
  uid : Int
  akas : List String
deriving DecidableEq, Repr

/-- Lines 111-116: the record stored per address: its first candidate's
type-label plus the accumulated `entries` list. -/
structure Record where
  type : String
  entries : List Detail
deriving DecidableEq, Repr

/-- Construct the detail object for an accepted candidate (lines 98-108). -/
def mkDetail (e : Entry) (t : String) : Detail where
  entity := jsTrim (entityName e)
  program := joinComma (e.programList.getD [])
  type := t
  uid := e.uid
  akas := akaNames e

/-- Lines 110-117: `if (!addresses[address]) addresses[address] = { type,
entries: [] }; addresses[address].entries.push(entryDetails)` on an object
whose keys are unique. -/
def pushDet : JMap Record → String → Detail → JMap Record
  | [], k, d => [(k, { type := d.type, entries := [d] })]
  | (k₁, r₁) :: rest, k, d =>
    if k₁ = k then (k, { r₁ with entries := r₁.entries ++ [d] }) :: rest
    else (k₁, r₁) :: pushDet rest k d

/-- The accepted candidate produced by one id node, if any (lines 78-117:
the guard on `idType`, the case-sensitive `includes('Digital Currency')`
test, the coerced lower-cased address, and the length ≥ 10 check). -/
def idCand (e : Entry) (i : SdnId) : Option (String × Detail) :=
  match i.idType with
  | some (.s t) =>
    if t = "" then none
    else if strIncludes t "Digital Currency" then
      let addr := addrOfNumber i.idNumber
      if addr = "" ∨ addr.length < 10 then none
      else some (addr, mkDetail e t)
    else none
  | _ => none

/-- Mutable state of part_001's `fetchAndParseSDNList` (diagnostic sets
and the console log omitted). -/
structure St where
  addresses : JMap Record
  processed : Nat
  totalDC : Nat
  found : Nat
deriving DecidableEq, Repr

def initSt : St where
  addresses := []
  processed := 0
  totalDC := 0
  found := 0

/-- Lines 78-118, body of the id loop (total: every branch is guarded in
this revision). -/
def procId (e : Entry) (s : St) (i : SdnId) : St :=
  match i.idType with
  | some (.s t) =>
    if t = "" then s
    else if strIncludes t "Digital Currency" then
      let s1 : St := { s with totalDC := s.totalDC + 1 }
      let addr := addrOfNumber i.idNumber
      if addr = "" ∨ addr.length < 10 then s1
      else
        { s1 with
          found := s1.found + 1,
          addresses := pushDet s1.addresses addr (mkDetail e t) }
    else s
  | _ => s

/-- Lines 62-127, body of the entry loop (the `try` block of this revision
cannot throw in the modelled fragment). -/
def procEntry (s : St) (e : Entry) : St :=
  let s1 : St := { s with processed := s.processed + 1 }
  (e.idList.getD []).foldl (procId e) s1

/-- The entry loop of part_001. -/
def run (d : List Entry) : St :=
  d.foldl procEntry initSt

end P1

namespace P2v4

/-- One `<id>` node as parsed by part_002's fourth sub-document
(`parseTagValue: true`). -/
structure SdnId where
  idType : Option JVal
  idNumber : Option JVal
deriving DecidableEq, Repr

/-- One `<publishInformation>` node. -/
structure PubInfo where
  publishDate : Option String
deriving DecidableEq, Repr

/-- One `<sdnEntry>` as parsed by part_002's fourth sub-document: no
`isArray` hints, so nested collections may be scalar or array and the code
routes them through `ensureArray`. -/
structure Entry where
  firstName : Option String
  lastName : Option String
  name : Option String
  title : Option String
  remarks : Option String
  programs : Option (ArrOr String)
  publishInformation : Option (ArrOr PubInfo)
  idList : Option (ArrOr SdnId)
deriving DecidableEq, Repr

/-- `trimValues: true` applied to an id node. -/
def trimId (i : SdnId) : SdnId where
  idType := i.idType.map (fun v => match v with | .s t => .s (jsTrim t) | .n k => .n k)
  idNumber := i.idNumber.map (fun v => match v with | .s t => .s (jsTrim t) | .n k => .n k)

/-- `trimValues: true` applied to an entry. -/
def trimEntry (e : Entry) : Entry where
  firstName := e.firstName.map jsTrim
  lastName := e.lastName.map jsTrim
  name := e.name.map jsTrim
  title := e.title.map jsTrim
  remarks := e.remarks.map jsTrim
  programs := e.programs.map (arrOrMap jsTrim)
  publishInformation :=
    e.publishInformation.map (arrOrMap (fun p => ⟨p.publishDate.map jsTrim⟩))
  idList := e.idList.map (arrOrMap trimId)

/-- Line 524: the classification test
`id.idType?.toLowerCase().includes('digital currency')` on a string
type-label (case-insensitive). -/
def isDigital (t : String) : Bool :=
  strIncludes (jsLower t) "digital currency"

/-- Lines 531-532: `ensureArray(entry.programList?.program).join(', ') ||
'Not specified'`. -/
def programJoin (p : Option (ArrOr String)) : String :=
  jsOrS (joinComma (ensureArr p)) "Not specified"

/-- Lines 535-536: `entry.firstName || entry.lastName || entry.name ||
entry.title || 'Unknown Entity'`. -/
def entityName (e : Entry) : String :=
  jsOr e.firstName (jsOr e.lastName (jsOr e.name (jsOr e.title "Unknown Entity")))

/-- Lines 456-469, `extractDate`: the first element of
`ensureArray(entry.publishInformation)`, falling back to a placeholder. -/
def extractDate (e : Entry) : String :=
  match e.publishInformation with
  | none => "Date not specified"
  | some pf =>
    match (ensureArr (some pf)).head? with
    | none => "Date not specified"
    | some pi => jsOr pi.publishDate "Date not specified"

/-- The record stored by lines 548-554 (object literal with exactly the
keys `entity`, `program`, `date`, `reason`, `type`). -/
structure Record where
  entity : String
  program : String
  date : String
  reason : String
  type : String
deriving DecidableEq, Repr

/-- The JSON keys of the record object literal of lines 548-554, in source
order. -/
def Record.keys : List String :=
  ["entity", "program", "date", "reason", "type"]

/-- Lines 548-554: construct the record for an accepted candidate. -/
def mkRecord (e : Entry) (t : String) : Record where
  entity := entityName e
  program := programJoin e.programs
  date := extractDate e
  reason := jsOr e.remarks "Listed on OFAC SDN List"
  type := t

/-- Mutable state of the fourth revision's `fetchAndParseSDNList`
(`uniqueIdTypes` and the console log omitted). -/
structure St where
  addresses : JMap Record
  processed : Nat
  found : Nat
deriving DecidableEq, Repr

def initSt : St where
  addresses := []
  processed := 0
  found := 0

/-- Lines 518-556, body of the id loop.  Calling `.toLowerCase()` on a
numeric `idType`, or on a truthy numeric `idNumber`, throws. -/
def procId (e : Entry) (s : St) (i : SdnId) : Except St St :=
  match i.idType with
  | none => .ok s
  | some (.n _) => .error s
  | some (.s t) =>
    if isDigital t then
      match i.idNumber with
      | some (.n k) => if k = 0 then .ok s else .error s
      | none => .ok s
      | some (.s v) =>
        let addr := jsLower v
        if addr = "" ∨ addr.length < 10 then .ok s
        else
          .ok { s with
                found := s.found + 1,
                addresses := insertJS s.addresses addr (mkRecord e t) }
    else .ok s

/-- Lines 509-561, body of the entry loop: bump the counter, run the id
loop over `ensureArray(entry.idList?.id)` inside `try`, log and continue on
throw. -/
def procEntry (s : St) (e : Entry) : St :=
  let s1 : St := { s with processed := s.processed + 1 }
  catchSt (foldT (procId e) s1 (ensureArr e.idList))

/-- The entry loop over the trimmed document (`trimValues: true`). -/
def run (d : List Entry) : St :=
  (d.map trimEntry).foldl procEntry initSt

end P2v4

namespace P3

/-- One `<id>` node as parsed by part_003; the code reads both a `text`
companion field and `idNumber`. -/
structure SdnId where
  idType : Option JVal
  idNumber : Option JVal
  text : Option JVal
deriving DecidableEq, Repr

/-- The nested `<publishInformation>` node of part_003
(`safeGet(entry, 'publishInformation.publishDate')`). -/
structure PubInfo where
  publishDate : Option String
deriving DecidableEq, Repr

/-- One `<sdnEntry>` as parsed by part_003 (no `isArray` hints). -/
structure Entry where
  firstName : Option String
  lastName : Option String
  remarks : Option String
  programs : Option (ArrOr String)
  publishInformation : Option PubInfo
  idList : Option (ArrOr SdnId)
deriving DecidableEq, Repr

/-- Lines 88-90: `safeGet(entry, 'lastName') || safeGet(entry,
'firstName') || 'Unknown Entity'`. -/
def entityName (e : Entry) : String :=
  jsOr e.lastName (jsOr e.firstName "Unknown Entity")

/-- Lines 92-95: `Array.isArray(programs) ? programs.join(', ') : (typeof
programs === 'string' ? programs : 'Not specified')`. -/
def programString : Option (ArrOr String) → String
  | some (.many l) => joinComma l
  | some (.one s) => s
  | none => "Not specified"

/-- Lines 77-78: the classification test `idType && typeof idType ===
'string' && idType.toLowerCase().includes('digital currency')`. -/
def isDigital (t : String) : Bool :=
  strIncludes (jsLower t) "digital currency"

/-- Line 81, fall-through of `safeGet(id, 'text') || safeGet(id,
'idNumber') || ''`: the `idNumber` alternative, then the empty string; a
truthy numeric value throws when lower-cased. -/
def numVal (i : SdnId) : Except Unit String :=
  match i.idNumber with
  | some (.s v) => .ok (jsLower v)
  | some (.n k) => if k = 0 then .ok "" else .error ()
  | none => .ok ""

/-- Line 81: `(safeGet(id, 'text') || safeGet(id, 'idNumber') ||
'').toLowerCase()`; choosing a truthy numeric value throws (caught by the
per-id `try`). -/
def addrVal (i : SdnId) : Except Unit String :=
  match i.text with
  | some (.s v) =>
    if v = "" then numVal i else .ok (jsLower v)
  | some (.n k) => if k = 0 then numVal i else .error ()
  | none => numVal i

/-- The record stored by lines 99-105 (object literal with exactly the
keys `entity`, `program`, `date`, `reason`, `type`). -/
structure Record where
  entity : String
  program : String
  date : String
  reason : String
  type : String
deriving DecidableEq, Repr

/-- The JSON keys of the record object literal of lines 99-105, in source
order. -/
def Record.keys : List String :=
  ["entity", "program", "date", "reason", "type"]

/-- Lines 99-105: construct the record for an accepted candidate. -/
def mkRecord (e : Entry) (t : String) : Record where
  entity := entityName e
  program := programString e.programs
  date := jsOr (e.publishInformation.bind PubInfo.publishDate) "Date not specified"
  reason := jsOr e.remarks "Listed on OFAC SDN List"
  type := t

/-- Mutable state of part_003's `fetchAndParseSDNList` (`currentEntry`
counter, the addresses object, and a count of per-id catches standing for
the per-id `console.error` diagnostics). -/
structure St where
  addresses : JMap Record
  current : Nat
  idErrors : Nat
deriving DecidableEq, Repr

def initSt : St where
  addresses := []
  current := 0
  idErrors := 0

/-- Lines 72-110, body of the id loop with its own `try/catch`: a throw
while extracting the address value only skips that id. -/
def procId (e : Entry) (s : St) (i : SdnId) : St :=
  match i.idType with
  | some (.s t) =>
    if isDigital t then
      match addrVal i with
      | .error _ => { s with idErrors := s.idErrors + 1 }
      | .ok addr =>
        if addr = "" then s
        else { s with addresses := insertJS s.addresses addr (mkRecord e t) }
    else s
  | _ => s

/-- Lines 60-114, body of the entry loop: bump `currentEntry`, then the
id loop over `Array.isArray(idList) ? idList : [idList]` (skipping when
`idList` is absent). -/
def procEntry (s : St) (e : Entry) : St :=
  let s1 : St := { s with current := s.current + 1 }
  match e.idList with
  | none => s1
  | some ids => (arrOrToList ids).foldl (procId e) s1

/-- The entry loop of part_003 over the trimmed document. -/
def run (d : List Entry) : St :=
  d.foldl procEntry initSt

/-- The parse result shape around the entry list. -/
structure Node3 where
  sdnEntry : Option (ArrOr Entry)
deriving DecidableEq, Repr

/-- The parsed document root. -/
structure Xml3 where
  sdnList : Option Node3
deriving DecidableEq, Repr

/-- Lines 46-53: the entity list if the structure check `!result ||
!result.sdnList || !result.sdnList.sdnEntry` passes, normalized with
`Array.isArray ? ... : [...]`. -/
def entriesOpt (r : Option Xml3) : Option (List Entry) :=
  ((r.bind Xml3.sdnList).bind Node3.sdnEntry).map arrOrToList

/-- Lines 36-123, `fetchAndParseSDNList` after parsing: throws `Invalid
XML structure` when the entity list is missing, otherwise returns the
addresses object. -/
def fetch (r : Option Xml3) : Except String (JMap Record) :=
  match entriesOpt r with
  | none => .error "Invalid XML structure"
  | some es => .ok (run es).addresses

/-- Lines 125-154, `updateSanctionsList`: the snapshot is built and handed
to the writer only when `fetchAndParseSDNList` succeeds; a thrown error
propagates to the `.catch(exit 1)` handler before any write. -/
def update (r : Option Xml3) (t : String) : Except String (Snapshot Record) :=
  (fetch r).map (fun addrs =>
    { metadata :=
        { lastUpdated := t
          source := "OFAC SDN List"
          totalAddresses := (alKeys addrs).length
          url := sdnUrl }
      addresses := addrs })

end P3

/-- Did an `Except`-valued step succeed? -/
def exOk {ε α : Type} : Except ε α → Bool
  | .ok _ => true
  | .error _ => false

/-- The (key, record) assignments performed by a throwing loop over `l`:
candidates accepted before the first throwing element, in order. -/
def candsT {α ρ : Type} (cand : α → Option (String × ρ)) (thr : α → Bool) :
    List α → List (String × ρ)
  | [] => []
  | a :: as =>
    if thr a then []
    else
      match cand a with
      | some p => p :: candsT cand thr as
      | none => candsT cand thr as

/-- The entries accumulated for key `k` in a part_001-style map. -/
def entriesAt (m : JMap P1.Record) (k : String) : List P1.Detail :=
  match alookup m k with
  | some r => r.entries
  | none => []

/-- Pick the records bound to key `k` out of an assignment list. -/
def pickKey {ρ : Type} (k : String) (p : String × ρ) : Option ρ :=
  if p.1 = k then some p.2 else none

namespace US1

/-- The accepted candidate produced by one (already trimmed) id node of
the first `update-sanctions.js` revision, if any: a string type-label
containing `Digital Currency` (case-sensitive, line 70) and a lower-cased
string value that is non-empty and at least 10 characters (lines 77-82). -/
def idCand (e : Entry) (i : SdnId) : Option (String × Record) :=
  match i.idType with
  | some (.s t) =>
    if isDigital t then
      match i.idNumber with
      | some (.s v) =>
        let addr := jsLower v
        if addr = "" ∨ addr.length < 10 then none else some (addr, mkRecord e t)
      | _ => none
    else none
  | _ => none

/-- Does processing this id node throw (numeric type-label, or truthy
numeric value reached by a matching type-label)? -/
def idThrows (i : SdnId) : Bool :=
  match i.idType with
  | some (.n _) => true
  | some (.s t) =>
    isDigital t &&
      (match i.idNumber with
       | some (.n k) => decide (k ≠ 0)
       | _ => false)
  | none => false

/-- The accepted candidates of one trimmed entry, in document order. -/
def entryCands (e : Entry) : List (String × Record) :=
  candsT (idCand e) idThrows (e.idList.getD [])

/-- The accepted candidates of a whole (raw) document, in document order. -/
def docCands (d : List Entry) : List (String × Record) :=
  ((d.map trimEntry).map entryCands).flatten

end US1

namespace P2v4

/-- The accepted candidate produced by one (already trimmed) id node of
part_002's fourth revision, if any: a string type-label whose lower-cased
form contains `digital currency` (line 524) and a lower-cased string value
that is non-empty and at least 10 characters (lines 525-526). -/
def idCand (e : Entry) (i : SdnId) : Option (String × Record) :=
  match i.idType with
  | some (.s t) =>
    if isDigital t then
      match i.idNumber with
      | some (.s v) =>
        let addr := jsLower v
        if addr = "" ∨ addr.length < 10 then none else some (addr, mkRecord e t)
      | _ => none
    else none
  | _ => none

/-- Does processing this id node throw? -/
def idThrows (i : SdnId) : Bool :=
  match i.idType with
  | some (.n _) => true
  | some (.s t) =>
    isDigital t &&
      (match i.idNumber with
       | some (.n k) => decide (k ≠ 0)
       | _ => false)
  | none => false

/-- The accepted candidates of one trimmed entry, in document order. -/
def entryCands (e : Entry) : List (String × Record) :=
  candsT (idCand e) idThrows (ensureArr e.idList)

/-- The accepted candidates of a whole (raw) document, in document order. -/
def docCands (d : List Entry) : List (String × Record) :=
  ((d.map trimEntry).map entryCands).flatten

end P2v4

namespace P1

/-- The accepted candidates of one entry of part_001, in order (this
revision's id loop is total, so no truncation occurs). -/
def entryCands (e : Entry) : List (String × Detail) :=
  (e.idList.getD []).filterMap (idCand e)

/-- The accepted candidates of a whole document, in document order. -/
def docCands (d : List Entry) : List (String × Detail) :=
  (d.map entryCands).flatten

/-- Perform an optional accumulation: the effect of one loop iteration on
the object, given the candidate it accepted (if any). -/
def pushCand (m : JMap Record) : Option (String × Detail) → JMap Record
  | some p => pushDet m p.1 p.2
  | none => m

end P1

/-- A well-formed test entity: Lazarus Group with one valid digital
currency address. -/
def entGood : US1.Entry where
  uid := 10
  firstName := none
  lastName := some "Lazarus Group"
  programList := some ["DPRK3"]
  idList := some [⟨some (.s "Digital Currency Address - XBT"), some (.s "0xAbC1234567")⟩]

/-- A malformed test entity: its id node has a numeric type-label, so the
US1 id loop throws on it. -/
def entBad : US1.Entry where
  uid := 11
  firstName := some "Broken"
  lastName := none
  programList := none
  idList := some [⟨some (.n 7), some (.s "0xdeadbeef00")⟩]

/-- A test entity whose type-label contains `digital currency` only
case-insensitively. -/
def entLowerType : US1.Entry where
  uid := 12
  firstName := none
  lastName := some "Tornado Cash"
  programList := none
  idList := some [⟨some (.s "digital currency address - eth"), some (.s "0xabcdef123456")⟩]

/-- A test entity with no program list and a valid address. -/
def entNoProgram : US1.Entry where
  uid := 13
  firstName := none
  lastName := some "Blender.io"
  programList := none
  idList := some [⟨some (.s "Digital Currency Address - XBT"), some (.s "bc1qabc123456")⟩]

/-- A test entity with both a first and a last name and a valid address. -/
def entBothNames : US1.Entry where
  uid := 14
  firstName := some "John"
  lastName := some "Doe"
  programList := some ["SDGT"]
  idList := some [⟨some (.s "Digital Currency Address - ETH"), some (.s "0x9999999999")⟩]

/-! ### Association-list (JS object) lemmas -/

theorem alookup_append {α : Type} (m₁ m₂ : JMap α) (k : String) :
    alookup (m₁ ++ m₂) k =
      match alookup m₁ k with
      | some v => some v
      | none => alookup m₂ k := by
  induction m₁ with
  | nil => simp [alookup]
  | cons p rest ih =>
    rcases p with ⟨k', v⟩
    by_cases h : k' = k <;> simp [alookup, h, ih]

theorem alookup_insertJS {α : Type} (m : JMap α) (k : String) (v : α) (k' : String) :
    alookup (insertJS m k v) k' = if k = k' then some v else alookup m k' := by
  induction m with
  | nil =>
    by_cases h : k = k' <;> simp [insertJS, alookup, h]
  | cons p rest ih =>
    rcases p with ⟨k₁, v₁⟩
    by_cases h1 : k₁ = k
    · subst h1
      by_cases h2 : k₁ = k' <;> simp [insertJS, alookup, h2]
    · by_cases h2 : k₁ = k'
      · subst h2
        have hk : ¬ k = k₁ := fun h => h1 h.symm
        simp [insertJS, alookup, h1, hk]
      · simp [insertJS, alookup, h1, h2, ih]

theorem alKeys_cons {α : Type} (p : String × α) (m : JMap α) :
    alKeys (p :: m) = p.1 :: alKeys m := rfl

theorem alKeys_insertJS {α : Type} (m : JMap α) (k : String) (v : α) :
    alKeys (insertJS m k v) =
      if (alookup m k).isSome then alKeys m else alKeys m ++ [k] := by
  induction m with
  | nil => simp [insertJS, alKeys, alookup]
  | cons p rest ih =>
    rcases p with ⟨k₁, v₁⟩
    by_cases h1 : k₁ = k
    · subst h1; simp [insertJS, alKeys, alookup]
    · rw [show insertJS ((k₁, v₁) :: rest) k v = (k₁, v₁) :: insertJS rest k v from by
        simp [insertJS, h1]]
      rw [alKeys_cons, alKeys_cons, ih]
      rw [show alookup ((k₁, v₁) :: rest) k = alookup rest k from by
        simp [alookup, h1]]
      by_cases h2 : (alookup rest k).isSome = true <;> simp [h2]

theorem mem_alKeys {α : Type} (m : JMap α) (k : String) :
    k ∈ alKeys m ↔ (alookup m k).isSome = true := by
  induction m with
  | nil => simp [alKeys, alookup]
  | cons p rest ih =>
    rcases p with ⟨k₁, v₁⟩
    by_cases h : k₁ = k
    · subst h; simp [alKeys_cons, alookup]
    · have hks : ¬ k = k₁ := fun hh => h hh.symm
      simp only [alKeys_cons, List.mem_cons, alookup, if_neg h]
      simp [hks, ih]

theorem alookup_mem {α : Type} (m : JMap α) (k : String) (v : α)
    (h : alookup m k = some v) : (k, v) ∈ m := by
  induction m with
  | nil => simp [alookup] at h
  | cons p rest ih =>
    rcases p with ⟨k₁, v₁⟩
    by_cases h1 : k₁ = k
    · subst h1
      simp [alookup] at h
      simp [h]
    · simp [alookup, h1] at h
      simp [ih h]

theorem nodup_alKeys_insertJS {α : Type} (m : JMap α) (k : String) (v : α)
    (h : (alKeys m).Nodup) : (alKeys (insertJS m k v)).Nodup := by
  rw [alKeys_insertJS]
  by_cases hk : (alookup m k).isSome = true
  · simpa [hk] using h
  · have hnm : k ∉ alKeys m := by
      rw [mem_alKeys]; simpa using hk
    have : (alKeys m ++ [k]).Nodup := by
      rw [List.nodup_append]
      refine ⟨h, List.nodup_singleton k, ?_⟩
      intro a ha hak
      rw [List.mem_singleton] at hak
      subst hak
      exact hnm ha
    simpa [hk] using this

theorem foldIns_cons {α : Type} (m : JMap α) (p : String × α) (l : List (String × α)) :
    foldIns m (p :: l) = foldIns (insertJS m p.1 p.2) l := rfl

theorem foldIns_append {α : Type} (m : JMap α) (l₁ l₂ : List (String × α)) :
    foldIns m (l₁ ++ l₂) = foldIns (foldIns m l₁) l₂ := by
  simp [foldIns, List.foldl_append]

theorem lastLookup_cons {α : Type} (p : String × α) (l : List (String × α)) (k : String) :
    lastLookup (p :: l) k =
      match lastLookup l k with
      | some v => some v
      | none => if p.1 = k then some p.2 else none := by
  rcases p with ⟨k₁, v₁⟩
  simp only [lastLookup, List.reverse_cons, alookup_append]
  cases lastLookup l k <;> simp [lastLookup, alookup]

theorem alookup_foldIns {α : Type} (m : JMap α) (l : List (String × α)) (k : String) :
    alookup (foldIns m l) k =
      match lastLookup l k with
      | some v => some v
      | none => alookup m k := by
  induction l generalizing m with
  | nil => simp [foldIns, lastLookup, alookup]
  | cons p rest ih =>
    rw [foldIns_cons, ih, lastLookup_cons]
    cases hr : lastLookup rest k with
    | some w => simp
    | none => by_cases hp : p.1 = k <;> simp [alookup_insertJS, hp]

theorem nodup_alKeys_foldIns {α : Type} (m : JMap α) (l : List (String × α))
    (h : (alKeys m).Nodup) : (alKeys (foldIns m l)).Nodup := by
  induction l generalizing m with
  | nil => exact h
  | cons p rest ih =>
    rw [foldIns_cons]
    exact ih _ (nodup_alKeys_insertJS _ _ _ h)

theorem mem_alKeys_foldIns_nil {α : Type} (l : List (String × α)) (k : String)
    (h : k ∈ alKeys (foldIns [] l)) : ∃ v, (k, v) ∈ l := by
  rw [mem_alKeys, alookup_foldIns] at h
  cases hr : lastLookup l k with
  | none => rw [hr] at h; simp [alookup] at h
  | some v =>
    refine ⟨v, ?_⟩
    have := alookup_mem _ _ _ hr
    exact List.mem_reverse.mp this

/-! ### Generic lemmas about throwing loops -/

theorem foldT_addr {σ α ρ : Type}
    (f : σ → α → Except σ σ) (A : σ → JMap ρ)
    (cand : α → Option (String × ρ)) (thr : α → Bool)
    (hstep : ∀ s a, A (catchSt (f s a)) = insCand (A s) (cand a))
    (hok : ∀ s a, exOk (f s a) = !(thr a))
    (hthr : ∀ a, thr a = true → cand a = none) :
    ∀ (l : List α) (s : σ),
      A (catchSt (foldT f s l)) = foldIns (A s) (candsT cand thr l) := by
  intro l
  induction l with
  | nil => intro s; simp [foldT, catchSt, candsT, foldIns]
  | cons a as ih =>
    intro s
    cases hfa : f s a with
    | ok s' =>
      have hta : thr a = false := by
        have h := hok s a
        rw [hfa] at h
        simp [exOk] at h
        cases hth : thr a
        · rfl
        · rw [hth] at h; simp at h
      have hA : A s' = insCand (A s) (cand a) := by
        have h := hstep s a
        rw [hfa] at h
        simpa [catchSt] using h
      rw [show foldT f s (a :: as) = foldT f s' as from by simp [foldT, hfa]]
      rw [show candsT cand thr (a :: as) =
            (match cand a with
             | some p => p :: candsT cand thr as
             | none => candsT cand thr as) from by simp [candsT, hta]]
      cases hc : cand a with
      | some p =>
        rw [hc] at hA
        rw [ih s', hA]
        simp [insCand]
        rfl
      | none =>
        rw [hc] at hA
        rw [ih s', hA]
        simp [insCand]
    | error s' =>
      have hta : thr a = true := by
        have h := hok s a
        rw [hfa] at h
        simp [exOk] at h
        cases hth : thr a
        · rw [hth] at h; simp at h
        · rfl
      have hA : A s' = A s := by
        have h := hstep s a
        rw [hfa, hthr a hta] at h
        simpa [catchSt, insCand] using h
      rw [show foldT f s (a :: as) = .error s' from by simp [foldT, hfa]]
      rw [show candsT cand thr (a :: as) = [] from by simp [candsT, hta]]
      simpa [catchSt, foldIns] using hA

theorem foldT_proj {σ α β : Type}
    (f : σ → α → Except σ σ) (P : σ → β)
    (hp : ∀ s a, P (catchSt (f s a)) = P s) :
    ∀ (l : List α) (s : σ), P (catchSt (foldT f s l)) = P s := by
  intro l
  induction l with
  | nil => intro s; simp [foldT, catchSt]
  | cons a as ih =>
    intro s
    cases hfa : f s a with
    | ok s' =>
      have h := hp s a
      rw [hfa] at h
      simp [catchSt] at h
      rw [show foldT f s (a :: as) = foldT f s' as from by simp [foldT, hfa]]
      rw [ih s', h]
    | error s' =>
      have h := hp s a
      rw [hfa] at h
      simp [catchSt] at h
      rw [show foldT f s (a :: as) = .error s' from by simp [foldT, hfa]]
      simpa [catchSt] using h

theorem mem_candsT {α ρ : Type}
    (cand : α → Option (String × ρ)) (thr : α → Bool)
    (l : List α) (p : String × ρ) (h : p ∈ candsT cand thr l) :
    ∃ a ∈ l, cand a = some p := by
  induction l with
  | nil => simp [candsT] at h
  | cons a as ih =>
    by_cases hta : thr a = true
    · rw [show candsT cand thr (a :: as) = [] from by simp [candsT, hta]] at h
      simp at h
    · have hta' : thr a = false := by
        cases hth : thr a
        · rfl
        · exact absurd hth hta
      rw [show candsT cand thr (a :: as) =
            (match cand a with
             | some q => q :: candsT cand thr as
             | none => candsT cand thr as) from by simp [candsT, hta']] at h
      cases hc : cand a with
      | some q =>
        rw [hc] at h
        rcases List.mem_cons.mp h with h1 | h1
        · exact ⟨a, List.mem_cons_self a as, by rw [hc, h1]⟩
        · rcases ih h1 with ⟨b, hb, hcb⟩
          exact ⟨b, List.mem_cons_of_mem a hb, hcb⟩
      | none =>
        rw [hc] at h
        rcases ih h with ⟨b, hb, hcb⟩
        exact ⟨b, List.mem_cons_of_mem a hb, hcb⟩

/-! ### String lemmas -/

theorem jsLower_length (s : String) : (jsLower s).length = s.length := by
  cases s with
  | mk data => simp [jsLower, String.length]

/-! ### Lemmas about the first update-sanctions.js revision -/

namespace US1

theorem u1_procId_addr (e : Entry) (s : St) (i : SdnId) :
    (catchSt (procId e s i)).addresses = insCand s.addresses (idCand e i) := by
  rcases i with ⟨ty, num⟩
  rcases ty with _ | tv
  · simp [procId, idCand, catchSt, insCand]
  · rcases tv with t | kk
    · by_cases hd : isDigital t = true
      · rcases num with _ | nv
        · simp [procId, idCand, catchSt, insCand, hd]
        · rcases nv with v | k2
          · by_cases hshort : jsLower v = "" ∨ (jsLower v).length < 10
            · simp [procId, idCand, catchSt, insCand, hd, hshort]
            · simp [procId, idCand, catchSt, insCand, hd, hshort]
          · by_cases hz : k2 = 0 <;> simp [procId, idCand, catchSt, insCand, hd, hz]
      · simp [procId, idCand, catchSt, insCand, hd]
    · simp [procId, idCand, catchSt, insCand]

theorem u1_procId_ok (e : Entry) (s : St) (i : SdnId) :
    exOk (procId e s i) = !(idThrows i) := by
  rcases i with ⟨ty, num⟩
  rcases ty with _ | tv
  · simp [procId, idThrows, exOk]
  · rcases tv with t | kk
    · by_cases hd : isDigital t = true
      · rcases num with _ | nv
        · simp [procId, idThrows, exOk, hd]
        · rcases nv with v | k2
          · by_cases hshort : jsLower v = "" ∨ (jsLower v).length < 10
            · simp [procId, idThrows, exOk, hd, hshort]
            · simp [procId, idThrows, exOk, hd, hshort]
          · by_cases hz : k2 = 0 <;> simp [procId, idThrows, exOk, hd, hz]
      · simp [procId, idThrows, exOk, hd]
    · simp [procId, idThrows, exOk]

theorem u1_idThrows_cand (e : Entry) (i : SdnId) (h : idThrows i = true) :
    idCand e i = none := by
  rcases i with ⟨ty, num⟩
  rcases ty with _ | tv
  · simp [idThrows] at h
  · rcases tv with t | kk
    · rcases num with _ | nv
      · simp [idThrows] at h
      · rcases nv with v | k2
        · simp [idThrows] at h
        · simp [idThrows] at h
          simp [idCand, h.1]
    · simp [idCand]

theorem u1_procId_processed (e : Entry) (s : St) (i : SdnId) :
    (catchSt (procId e s i)).processed = s.processed := by
  rcases i with ⟨ty, num⟩
  rcases ty with _ | tv
  · simp [procId, catchSt]
  · rcases tv with t | kk
    · by_cases hd : isDigital t = true
      · rcases num with _ | nv
        · simp [procId, catchSt, hd]
        · rcases nv with v | k2
          · by_cases hshort : jsLower v = "" ∨ (jsLower v).length < 10
            · simp [procId, catchSt, hd, hshort]
            · simp [procId, catchSt, hd, hshort]
          · by_cases hz : k2 = 0 <;> simp [procId, catchSt, hd, hz]
      · simp [procId, catchSt, hd]
    · simp [procId, catchSt]

theorem u1_procEntry_addr (s : St) (e : Entry) :
    (procEntry s e).addresses = foldIns s.addresses (entryCands e) := by
  have h := foldT_addr (procId e) St.addresses (idCand e) idThrows
    (u1_procId_addr e) (u1_procId_ok e) (u1_idThrows_cand e) (e.idList.getD [])
    { s with processed := s.processed + 1 }
  unfold procEntry entryCands
  cases hft : foldT (procId e) { s with processed := s.processed + 1 }
      (e.idList.getD []) with
  | ok s2 =>
    rw [hft] at h
    simp only [catchSt] at h
    simpa [hft] using h
  | error s2 =>
    rw [hft] at h
    simp only [catchSt] at h
    simpa [hft] using h

theorem u1_procEntry_processed (s : St) (e : Entry) :
    (procEntry s e).processed = s.processed + 1 := by
  have h := foldT_proj (procId e) St.processed (u1_procId_processed e)
    (e.idList.getD []) { s with processed := s.processed + 1 }
  unfold procEntry
  cases hft : foldT (procId e) { s with processed := s.processed + 1 }
      (e.idList.getD []) with
  | ok s2 =>
    rw [hft] at h
    simp only [catchSt] at h
    simpa [hft] using h
  | error s2 =>
    rw [hft] at h
    simp only [catchSt] at h
    simpa [hft] using h

theorem u1_foldl_procEntry_addr (es : List Entry) :
    ∀ s : St, (es.foldl procEntry s).addresses =
      foldIns s.addresses ((es.map entryCands).flatten) := by
  induction es with
  | nil => intro s; simp [foldIns]
  | cons e es ih =>
    intro s
    rw [List.foldl_cons, ih, u1_procEntry_addr, List.map_cons, List.flatten_cons,
      foldIns_append]

theorem u1_run_addr (d : List Entry) :
    (run d).addresses = foldIns [] (docCands d) := by
  unfold run docCands
  rw [u1_foldl_procEntry_addr]
  rfl

theorem foldl_procEntry_processed (es : List Entry) :
    ∀ s : St, (es.foldl procEntry s).processed = s.processed + es.length := by
  induction es with
  | nil => intro s; simp
  | cons e es ih =>
    intro s
    rw [List.foldl_cons, ih, u1_procEntry_processed]
    simp [Nat.add_assoc, Nat.add_comm 1 es.length]

theorem u1_run_processed (d : List Entry) : (run d).processed = d.length := by
  unfold run
  rw [foldl_procEntry_processed]
  simp [initSt]

theorem run_lookup (d : List Entry) (k : String) :
    alookup (run d).addresses k = lastLookup (docCands d) k := by
  rw [u1_run_addr, alookup_foldIns]
  cases lastLookup (docCands d) k <;> simp [alookup]

theorem u1_run_nodup (d : List Entry) : (alKeys (run d).addresses).Nodup := by
  rw [u1_run_addr]
  exact nodup_alKeys_foldIns _ _ (by simp [alKeys])

theorem u1_idCand_inv (e : Entry) (i : SdnId) (k : String) (r : Record)
    (h : idCand e i = some (k, r)) :
    ∃ t v, i.idType = some (JVal.s t) ∧ isDigital t = true ∧
      i.idNumber = some (JVal.s v) ∧ k = jsLower v ∧ k ≠ "" ∧ 10 ≤ k.length := by
  rcases i with ⟨ty, num⟩
  rcases ty with _ | tv
  · simp [idCand] at h
  · rcases tv with t | kk
    · by_cases hd : isDigital t = true
      · rcases num with _ | nv
        · simp [idCand, hd] at h
        · rcases nv with v | k2
          · by_cases hshort : jsLower v = "" ∨ (jsLower v).length < 10
            · simp [idCand, hd, hshort] at h
            · simp [idCand, hd, hshort] at h
              push_neg at hshort
              refine ⟨t, v, rfl, hd, rfl, h.1.symm, ?_, ?_⟩
              · rw [← h.1]
                exact hshort.1
              · rw [← h.1]
                exact hshort.2
          · simp [idCand, hd] at h
      · simp [idCand, hd] at h
    · simp [idCand] at h

theorem u1_trimEntry_ids (e : Entry) :
    (trimEntry e).idList.getD [] = (e.idList.getD []).map trimId := by
  rcases he : e.idList with _ | l <;> simp [trimEntry, he]

theorem u1_trimId_num (i : SdnId) (v : String)
    (h : (trimId i).idNumber = some (JVal.s v)) :
    ∃ raw, i.idNumber = some (JVal.s raw) ∧ v = jsTrim raw := by
  rcases i with ⟨ty, num⟩
  rcases num with _ | nv
  · simp [trimId] at h
  · rcases nv with w | k2
    · simp [trimId] at h
      exact ⟨w, rfl, h.symm⟩
    · simp [trimId] at h

theorem u1_run_keys (d : List Entry) (k : String)
    (h : k ∈ alKeys (run d).addresses) :
    10 ≤ k.length ∧ ∃ e ∈ d, ∃ i ∈ e.idList.getD [], ∃ raw,
      i.idNumber = some (JVal.s raw) ∧ k = jsLower (jsTrim raw) := by
  rw [u1_run_addr] at h
  rcases mem_alKeys_foldIns_nil _ _ h with ⟨r, hr⟩
  unfold docCands at hr
  rcases List.mem_flatten.mp hr with ⟨cl, hcl, hp⟩
  rcases List.mem_map.mp hcl with ⟨e', he', rfl⟩
  rcases List.mem_map.mp he' with ⟨e, he, rfl⟩
  rcases mem_candsT _ _ _ _ hp with ⟨i', hi', hci⟩
  rcases u1_idCand_inv _ _ _ _ hci with ⟨t, v, hty, hd, hnum, hkv, hne, hlen⟩
  rw [u1_trimEntry_ids] at hi'
  rcases List.mem_map.mp hi' with ⟨i, hi, rfl⟩
  rcases u1_trimId_num i v hnum with ⟨raw, hraw, hv⟩
  exact ⟨hlen, e, he, i, hi, raw, hraw, by rw [hkv, hv]⟩

theorem u1_procId_reject (e : Entry) (s : St) (i : SdnId) (raw : String)
    (hn : i.idNumber = some (JVal.s raw))
    (hshort : jsLower (jsTrim raw) = "" ∨ (jsLower (jsTrim raw)).length < 10) :
    (catchSt (procId e s (trimId i))).addresses = s.addresses := by
  rw [u1_procId_addr]
  suffices h : idCand e (trimId i) = none by rw [h]; rfl
  rcases i with ⟨ty, num⟩
  simp only at hn
  subst hn
  rcases ty with _ | tv
  · simp [idCand, trimId]
  · rcases tv with t | kk
    · by_cases hd : isDigital (jsTrim t) = true
      · simp [idCand, trimId, hd, hshort]
      · simp [idCand, trimId, hd]
    · simp [idCand, trimId]

end US1

/-! ### Lemmas about part_002's fourth revision -/

theorem ensureArr_map {α β : Type} (f : α → β) (o : Option (ArrOr α)) :
    ensureArr (o.map (arrOrMap f)) = (ensureArr o).map f := by
  rcases o with _ | ao
  · simp [ensureArr]
  · rcases ao with a | l <;> simp [ensureArr, arrOrMap]

namespace P2v4

theorem p2_procId_addr (e : Entry) (s : St) (i : SdnId) :
    (catchSt (procId e s i)).addresses = insCand s.addresses (idCand e i) := by
  rcases i with ⟨ty, num⟩
  rcases ty with _ | tv
  · simp [procId, idCand, catchSt, insCand]
  · rcases tv with t | kk
    · by_cases hd : isDigital t = true
      · rcases num with _ | nv
        · simp [procId, idCand, catchSt, insCand, hd]
        · rcases nv with v | k2
          · by_cases hshort : jsLower v = "" ∨ (jsLower v).length < 10
            · simp [procId, idCand, catchSt, insCand, hd, hshort]
            · simp [procId, idCand, catchSt, insCand, hd, hshort]
          · by_cases hz : k2 = 0 <;> simp [procId, idCand, catchSt, insCand, hd, hz]
      · simp [procId, idCand, catchSt, insCand, hd]
    · simp [procId, idCand, catchSt, insCand]

theorem p2_procId_ok (e : Entry) (s : St) (i : SdnId) :
    exOk (procId e s i) = !(idThrows i) := by
  rcases i with ⟨ty, num⟩
  rcases ty with _ | tv
  · simp [procId, idThrows, exOk]
  · rcases tv with t | kk
    · by_cases hd : isDigital t = true
      · rcases num with _ | nv
        · simp [procId, idThrows, exOk, hd]
        · rcases nv with v | k2
          · by_cases hshort : jsLower v = "" ∨ (jsLower v).length < 10
            · simp [procId, idThrows, exOk, hd, hshort]
            · simp [procId, idThrows, exOk, hd, hshort]
          · by_cases hz : k2 = 0 <;> simp [procId, idThrows, exOk, hd, hz]
      · simp [procId, idThrows, exOk, hd]
    · simp [procId, idThrows, exOk]

theorem p2_idThrows_cand (e : Entry) (i : SdnId) (h : idThrows i = true) :
    idCand e i = none := by
  rcases i with ⟨ty, num⟩
  rcases ty with _ | tv
  · simp [idThrows] at h
  · rcases tv with t | kk
    · rcases num with _ | nv
      · simp [idThrows] at h
      · rcases nv with v | k2
        · simp [idThrows] at h
        · simp [idThrows] at h
          simp [idCand, h.1]
    · simp [idCand]

theorem p2_procId_processed (e : Entry) (s : St) (i : SdnId) :
    (catchSt (procId e s i)).processed = s.processed := by
  rcases i with ⟨ty, num⟩
  rcases ty with _ | tv
  · simp [procId, catchSt]
  · rcases tv with t | kk
    · by_cases hd : isDigital t = true
      · rcases num with _ | nv
        · simp [procId, catchSt, hd]
        · rcases nv with v | k2
          · by_cases hshort : jsLower v = "" ∨ (jsLower v).length < 10
            · simp [procId, catchSt, hd, hshort]
            · simp [procId, catchSt, hd, hshort]
          · by_cases hz : k2 = 0 <;> simp [procId, catchSt, hd, hz]
      · simp [procId, catchSt, hd]
    · simp [procId, catchSt]

theorem p2_procEntry_addr (s : St) (e : Entry) :
    (procEntry s e).addresses = foldIns s.addresses (entryCands e) := by
  have h := foldT_addr (procId e) St.addresses (idCand e) idThrows
    (p2_procId_addr e) (p2_procId_ok e) (p2_idThrows_cand e) (ensureArr e.idList)
    { s with processed := s.processed + 1 }
  unfold procEntry entryCands
  simpa using h

theorem p2_foldl_procEntry_addr (es : List Entry) :
    ∀ s : St, (es.foldl procEntry s).addresses =
      foldIns s.addresses ((es.map entryCands).flatten) := by
  induction es with
  | nil => intro s; simp [foldIns]
  | cons e es ih =>
    intro s
    rw [List.foldl_cons, ih, p2_procEntry_addr, List.map_cons, List.flatten_cons,
      foldIns_append]

theorem p2_run_addr (d : List Entry) :
    (run d).addresses = foldIns [] (docCands d) := by
  unfold run docCands
  rw [p2_foldl_procEntry_addr]
  rfl

theorem p2_run_nodup (d : List Entry) : (alKeys (run d).addresses).Nodup := by
  rw [p2_run_addr]
  exact nodup_alKeys_foldIns _ _ (by simp [alKeys])

theorem p2_idCand_inv (e : Entry) (i : SdnId) (k : String) (r : Record)
    (h : idCand e i = some (k, r)) :
    ∃ t v, i.idType = some (JVal.s t) ∧ isDigital t = true ∧
      i.idNumber = some (JVal.s v) ∧ k = jsLower v ∧ k ≠ "" ∧ 10 ≤ k.length := by
  rcases i with ⟨ty, num⟩
  rcases ty with _ | tv
  · simp [idCand] at h
  · rcases tv with t | kk
    · by_cases hd : isDigital t = true
      · rcases num with _ | nv
        · simp [idCand, hd] at h
        · rcases nv with v | k2
          · by_cases hshort : jsLower v = "" ∨ (jsLower v).length < 10
            · simp [idCand, hd, hshort] at h
            · simp [idCand, hd, hshort] at h
              push_neg at hshort
              refine ⟨t, v, rfl, hd, rfl, h.1.symm, ?_, ?_⟩
              · rw [← h.1]
                exact hshort.1
              · rw [← h.1]
                exact hshort.2
          · simp [idCand, hd] at h
      · simp [idCand, hd] at h
    · simp [idCand] at h

theorem p2_trimEntry_ids (e : Entry) :
    ensureArr (trimEntry e).idList = (ensureArr e.idList).map trimId := by
  unfold trimEntry
  exact ensureArr_map trimId e.idList

theorem p2_trimId_num (i : SdnId) (v : String)
    (h : (trimId i).idNumber = some (JVal.s v)) :
    ∃ raw, i.idNumber = some (JVal.s raw) ∧ v = jsTrim raw := by
  rcases i with ⟨ty, num⟩
  rcases num with _ | nv
  · simp [trimId] at h
  · rcases nv with w | k2
    · simp [trimId] at h
      exact ⟨w, rfl, h.symm⟩
    · simp [trimId] at h

theorem p2_run_keys (d : List Entry) (k : String)
    (h : k ∈ alKeys (run d).addresses) :
    10 ≤ k.length ∧ ∃ e ∈ d, ∃ i ∈ ensureArr e.idList, ∃ raw,
      i.idNumber = some (JVal.s raw) ∧ k = jsLower (jsTrim raw) := by
  rw [p2_run_addr] at h
  rcases mem_alKeys_foldIns_nil _ _ h with ⟨r, hr⟩
  unfold docCands at hr
  rcases List.mem_flatten.mp hr with ⟨cl, hcl, hp⟩
  rcases List.mem_map.mp hcl with ⟨e', he', rfl⟩
  rcases List.mem_map.mp he' with ⟨e, he, rfl⟩
  rcases mem_candsT _ _ _ _ hp with ⟨i', hi', hci⟩
  rcases p2_idCand_inv _ _ _ _ hci with ⟨t, v, hty, hd, hnum, hkv, hne, hlen⟩
  rw [p2_trimEntry_ids] at hi'
  rcases List.mem_map.mp hi' with ⟨i, hi, rfl⟩
  rcases p2_trimId_num i v hnum with ⟨raw, hraw, hv⟩
  exact ⟨hlen, e, he, i, hi, raw, hraw, by rw [hkv, hv]⟩

theorem p2_procId_reject (e : Entry) (s : St) (i : SdnId) (raw : String)
    (hn : i.idNumber = some (JVal.s raw))
    (hshort : jsLower (jsTrim raw) = "" ∨ (jsLower (jsTrim raw)).length < 10) :
    (catchSt (procId e s (trimId i))).addresses = s.addresses := by
  rw [p2_procId_addr]
  suffices h : idCand e (trimId i) = none by rw [h]; rfl
  rcases i with ⟨ty, num⟩
  simp only at hn
  subst hn
  rcases ty with _ | tv
  · simp [idCand, trimId]
  · rcases tv with t | kk
    · by_cases hd : isDigital (jsTrim t) = true
      · simp [idCand, trimId, hd, hshort]
      · simp [idCand, trimId, hd]
    · simp [idCand, trimId]

end P2v4

/-! ### Lemmas about part_001 (the accumulating revision) -/

namespace P1

theorem entriesAt_pushDet (m : JMap Record) (k : String) (d : Detail) (k' : String) :
    entriesAt (pushDet m k d) k' =
      if k = k' then entriesAt m k' ++ [d] else entriesAt m k' := by
  induction m with
  | nil =>
    by_cases h : k = k' <;> simp [pushDet, entriesAt, alookup, h]
  | cons p rest ih =>
    rcases p with ⟨k₁, r₁⟩
    by_cases h1 : k₁ = k
    · subst h1
      by_cases h2 : k₁ = k' <;> simp [pushDet, entriesAt, alookup, h2]
    · by_cases h2 : k₁ = k'
      · subst h2
        have hk : ¬ k = k₁ := fun h => h1 h.symm
        simp [pushDet, entriesAt, alookup, h1, hk]
      · simp only [pushDet, if_neg h1]
        simp only [entriesAt, alookup, if_neg h2] at ih ⊢
        exact ih

theorem alKeys_pushDet (m : JMap Record) (k : String) (d : Detail) :
    alKeys (pushDet m k d) =
      if (alookup m k).isSome then alKeys m else alKeys m ++ [k] := by
  induction m with
  | nil => simp [pushDet, alKeys, alookup]
  | cons p rest ih =>
    rcases p with ⟨k₁, r₁⟩
    by_cases h1 : k₁ = k
    · subst h1; simp [pushDet, alKeys, alookup]
    · rw [show pushDet ((k₁, r₁) :: rest) k d = (k₁, r₁) :: pushDet rest k d from by
        simp [pushDet, h1]]
      rw [alKeys_cons, alKeys_cons, ih]
      rw [show alookup ((k₁, r₁) :: rest) k = alookup rest k from by
        simp [alookup, h1]]
      by_cases h2 : (alookup rest k).isSome = true <;> simp [h2]

theorem nodup_alKeys_pushDet (m : JMap Record) (k : String) (d : Detail)
    (h : (alKeys m).Nodup) : (alKeys (pushDet m k d)).Nodup := by
  rw [alKeys_pushDet]
  by_cases hk : (alookup m k).isSome = true
  · simpa [hk] using h
  · have hnm : k ∉ alKeys m := by
      rw [mem_alKeys]; simpa using hk
    have : (alKeys m ++ [k]).Nodup := by
      rw [List.nodup_append]
      refine ⟨h, List.nodup_singleton k, ?_⟩
      intro a ha hak
      rw [List.mem_singleton] at hak
      subst hak
      exact hnm ha
    simpa [hk] using this

theorem p1_procId_addr (e : Entry) (s : St) (i : SdnId) :
    (procId e s i).addresses = pushCand s.addresses (idCand e i) := by
  rcases i with ⟨ty, num⟩
  rcases ty with _ | tv
  · simp [procId, idCand, pushCand]
  · rcases tv with t | kk
    · by_cases ht : t = ""
      · simp [procId, idCand, pushCand, ht]
      · by_cases hd : strIncludes t "Digital Currency" = true
        · by_cases hshort : addrOfNumber num = "" ∨ (addrOfNumber num).length < 10
          · simp [procId, idCand, pushCand, ht, hd, hshort]
          · simp [procId, idCand, pushCand, ht, hd, hshort]
        · simp [procId, idCand, pushCand, ht, hd]
    · simp [procId, idCand, pushCand]

theorem p1_procId_processed (e : Entry) (s : St) (i : SdnId) :
    (procId e s i).processed = s.processed := by
  rcases i with ⟨ty, num⟩
  rcases ty with _ | tv
  · simp [procId]
  · rcases tv with t | kk
    · by_cases ht : t = ""
      · simp [procId, ht]
      · by_cases hd : strIncludes t "Digital Currency" = true
        · by_cases hshort : addrOfNumber num = "" ∨ (addrOfNumber num).length < 10
          · simp [procId, ht, hd, hshort]
          · simp [procId, ht, hd, hshort]
        · simp [procId, ht, hd]
    · simp [procId]

theorem foldIds_entriesAt (e : Entry) (is : List SdnId) :
    ∀ (s : St) (k : String),
      entriesAt ((is.foldl (procId e) s).addresses) k =
        entriesAt s.addresses k ++ ((is.filterMap (idCand e)).filterMap (pickKey k)) := by
  induction is with
  | nil => intro s k; simp
  | cons i is ih =>
    intro s k
    rw [List.foldl_cons, ih]
    cases hc : idCand e i with
    | none =>
      rw [p1_procId_addr]
      simp [hc, pushCand, List.filterMap_cons]
    | some p =>
      rw [p1_procId_addr, hc]
      by_cases hpk : p.1 = k
      · simp only [pushCand, List.filterMap_cons, hc, pickKey, if_pos hpk]
        rw [show pushDet s.addresses p.1 p.2 = pushDet s.addresses k p.2 from by rw [hpk]]
        rw [entriesAt_pushDet]
        simp
      · simp only [pushCand, List.filterMap_cons, hc, pickKey, if_neg hpk]
        rw [entriesAt_pushDet]
        simp [hpk]

theorem procEntry_entriesAt (s : St) (e : Entry) (k : String) :
    entriesAt (procEntry s e).addresses k =
      entriesAt s.addresses k ++ ((entryCands e).filterMap (pickKey k)) := by
  unfold procEntry entryCands
  rw [foldIds_entriesAt]

theorem foldl_procEntry_entriesAt (es : List Entry) :
    ∀ (s : St) (k : String),
      entriesAt ((es.foldl procEntry s).addresses) k =
        entriesAt s.addresses k ++
          (((es.map entryCands).flatten).filterMap (pickKey k)) := by
  induction es with
  | nil => intro s k; simp
  | cons e es ih =>
    intro s k
    rw [List.foldl_cons, ih, procEntry_entriesAt, List.map_cons, List.flatten_cons,
      List.filterMap_append, List.append_assoc]

theorem run_entriesAt (d : List Entry) (k : String) :
    entriesAt (run d).addresses k = (docCands d).filterMap (pickKey k) := by
  unfold run docCands
  rw [foldl_procEntry_entriesAt]
  simp [initSt, entriesAt, alookup]

theorem p1_procEntry_processed (s : St) (e : Entry) :
    (procEntry s e).processed = s.processed + 1 := by
  unfold procEntry
  generalize hs1 : ({ s with processed := s.processed + 1 } : St) = s1
  have hbase : s1.processed = s.processed + 1 := by rw [← hs1]
  clear hs1
  induction (e.idList.getD []) generalizing s1 with
  | nil => simpa using hbase
  | cons i is ih =>
    rw [List.foldl_cons]
    exact ih _ (by rw [p1_procId_processed, hbase])

theorem p1_run_processed (d : List Entry) : (run d).processed = d.length := by
  unfold run
  have : ∀ (es : List Entry) (s : St),
      (es.foldl procEntry s).processed = s.processed + es.length := by
    intro es
    induction es with
    | nil => intro s; simp
    | cons e es ih =>
      intro s
      rw [List.foldl_cons, ih, p1_procEntry_processed]
      simp [Nat.add_assoc, Nat.add_comm 1 es.length]
  rw [this]
  simp [initSt]

theorem procId_nodup (e : Entry) (s : St) (i : SdnId)
    (h : (alKeys s.addresses).Nodup) : (alKeys (procId e s i).addresses).Nodup := by
  rw [p1_procId_addr]
  cases idCand e i with
  | none => simpa [pushCand] using h
  | some p => exact nodup_alKeys_pushDet _ _ _ h

theorem p1_run_nodup (d : List Entry) : (alKeys (run d).addresses).Nodup := by
  unfold run
  have : ∀ (es : List Entry) (s : St),
      (alKeys s.addresses).Nodup → (alKeys ((es.foldl procEntry s).addresses)).Nodup := by
    intro es
    induction es with
    | nil => intro s h; simpa using h
    | cons e es ih =>
      intro s h
      rw [List.foldl_cons]
      refine ih _ ?_
      unfold procEntry
      generalize hs1 : ({ s with processed := s.processed + 1 } : St) = s1
      have hbase : (alKeys s1.addresses).Nodup := by rw [← hs1]; simpa using h
      clear hs1
      induction (e.idList.getD []) generalizing s1 with
      | nil => simpa using hbase
      | cons i is ih2 =>
        rw [List.foldl_cons]
        exact ih2 _ (procId_nodup e s1 i hbase)
  exact this _ _ (by simp [initSt, alKeys])

end P1

/-! ### Lemmas about part_003 -/

namespace P3

theorem procId_current (e : Entry) (s : St) (i : SdnId) :
    (procId e s i).current = s.current := by
  rcases i with ⟨ty, num, txt⟩
  rcases ty with _ | tv
  · simp [procId]
  · rcases tv with t | kk
    · by_cases hd : isDigital t = true
      · cases hav : addrVal ⟨some (JVal.s t), num, txt⟩ with
        | error u => simp [procId, hd, hav]
        | ok addr =>
          by_cases ha : addr = "" <;> simp [procId, hd, hav, ha]
      · simp [procId, hd]
    · simp [procId]

theorem procEntry_current (s : St) (e : Entry) :
    (procEntry s e).current = s.current + 1 := by
  have haux : ∀ (is : List SdnId) (s1 : St),
      (is.foldl (procId e) s1).current = s1.current := by
    intro is
    induction is with
    | nil => intro s1; rfl
    | cons i is ih =>
      intro s1
      rw [List.foldl_cons, ih, procId_current]
  unfold procEntry
  cases he : e.idList with
  | none => simp [he]
  | some ids => simp [he, haux]

theorem run_current (d : List Entry) : (run d).current = d.length := by
  unfold run
  have : ∀ (es : List Entry) (s : St),
      (es.foldl procEntry s).current = s.current + es.length := by
    intro es
    induction es with
    | nil => intro s; simp
    | cons e es ih =>
      intro s
      rw [List.foldl_cons, ih, procEntry_current]
      simp [Nat.add_assoc, Nat.add_comm 1 es.length]
  rw [this]
  simp [initSt]

end P3

theorem trimChars_concat_ws (l : List Char) (c : Char) (hc : isWs c = true) :
    trimChars (l ++ [c]) = trimChars l := by
  unfold trimChars
  rw [List.dropWhile_append]
  by_cases he : (l.dropWhile isWs).isEmpty = true
  · simp only [he, if_true]
    simp [List.dropWhile, hc, List.isEmpty_iff.mp he]
  · simp only [he, Bool.false_eq_true, if_false]
    rw [List.reverse_append]
    simp [List.dropWhile, hc]

theorem jsTrim_append_space (s : String) : jsTrim (s ++ " ") = jsTrim s := by
  cases s with
  | mk data =>
    show String.mk (trimChars (data ++ [' '])) = String.mk (trimChars data)
    rw [trimChars_concat_ws data ' ' (by decide)]

/-! ### The claims -/

/-- C1: for every accepted candidate identifier, the key under which its
record is stored equals the lower-cased, trimmed form of the raw extracted
value and is at least 10 characters long, and every candidate whose
normalized value is empty or shorter than 10 characters is rejected and
produces no record.  Proved for both cited revisions: the first
update-sanctions.js revision (lines 77-82) and part_002's fourth revision
(lines 524-526); in both, trimming comes from the parser's
`trimValues: true` and lower-casing from `.toLowerCase()`. -/
theorem c1_keys_normalized :
    (∀ (d : List US1.Entry) (k : String), k ∈ alKeys (US1.run d).addresses →
      10 ≤ k.length ∧ ∃ e ∈ d, ∃ i ∈ e.idList.getD [], ∃ raw,
        i.idNumber = some (JVal.s raw) ∧ k = jsLower (jsTrim raw))
    ∧ (∀ (e : US1.Entry) (s : US1.St) (i : US1.SdnId) (raw : String),
        i.idNumber = some (JVal.s raw) →
        jsLower (jsTrim raw) = "" ∨ (jsLower (jsTrim raw)).length < 10 →
        (catchSt (US1.procId e s (US1.trimId i))).addresses = s.addresses)
    ∧ (∀ (d : List P2v4.Entry) (k : String), k ∈ alKeys (P2v4.run d).addresses →
      10 ≤ k.length ∧ ∃ e ∈ d, ∃ i ∈ ensureArr e.idList, ∃ raw,
        i.idNumber = some (JVal.s raw) ∧ k = jsLower (jsTrim raw))
    ∧ (∀ (e : P2v4.Entry) (s : P2v4.St) (i : P2v4.SdnId) (raw : String),
        i.idNumber = some (JVal.s raw) →
        jsLower (jsTrim raw) = "" ∨ (jsLower (jsTrim raw)).length < 10 →
        (catchSt (P2v4.procId e s (P2v4.trimId i))).addresses = s.addresses) :=
  ⟨US1.u1_run_keys, US1.u1_procId_reject, P2v4.p2_run_keys, P2v4.p2_procId_reject⟩

/-- C1 witness: the accepted address of entGood, keyed by its lower-cased
trimmed value. -/
theorem c1_keys_normalized_witness :
    "0xabc1234567" ∈ alKeys (US1.run [entGood]).addresses
    ∧ (10 ≤ ("0xabc1234567" : String).length
       ∧ ∃ e ∈ [entGood], ∃ i ∈ e.idList.getD [], ∃ raw,
          i.idNumber = some (JVal.s raw) ∧ "0xabc1234567" = jsLower (jsTrim raw)) :=
  ⟨by decide, c1_keys_normalized.1 [entGood] "0xabc1234567" (by decide)⟩

/-- C2 counterexample: the claim says classification is case-insensitive,
but in the first update-sanctions.js revision (line 70,
`id?.idType?.includes('Digital Currency')`) the all-lower-case type-label
"digital currency address - eth" — which case-insensitively contains
"digital currency" — is not classified: its digital-currency counter stays
0 and its valid 14-character address produces no record. -/
theorem c2_counterexample :
    strIncludesCI "digital currency address - eth" "digital currency" = true
    ∧ (US1.run [entLowerType]).totalDC = 0
    ∧ (US1.run [entLowerType]).addresses = [] := by
  decide

/-- C2 amended: in the first update-sanctions.js revision an identifier is
classified as a candidate iff its string type-label contains the
case-sensitive substring "Digital Currency"; in part_002's fourth revision
iff its lower-cased type-label contains "digital currency"
(case-insensitive).  In both, an unclassified identifier (in particular
one whose type-label is "Passport") leaves the state unchanged and
contributes no record, and a classified identifier is processed (US1
increments its digital-currency counter; P2v4 stores the record whenever
the value is a valid string address). -/
theorem c2_classification_amended :
    (∀ t, US1.isDigital t = strIncludes t "Digital Currency")
    ∧ (∀ t, P2v4.isDigital t = strIncludesCI t "digital currency")
    ∧ (∀ (e : US1.Entry) (s : US1.St) (i : US1.SdnId) (t : String),
        i.idType = some (JVal.s t) → US1.isDigital t = false →
        US1.procId e s i = Except.ok s)
    ∧ (∀ (e : US1.Entry) (s : US1.St) (i : US1.SdnId) (t : String),
        i.idType = some (JVal.s t) → US1.isDigital t = true →
        (catchSt (US1.procId e s i)).totalDC = s.totalDC + 1)
    ∧ (∀ (e : P2v4.Entry) (s : P2v4.St) (i : P2v4.SdnId) (t : String),
        i.idType = some (JVal.s t) → P2v4.isDigital t = false →
        P2v4.procId e s i = Except.ok s)
    ∧ (∀ (e : P2v4.Entry) (s : P2v4.St) (i : P2v4.SdnId) (t v : String),
        i.idType = some (JVal.s t) → P2v4.isDigital t = true →
        i.idNumber = some (JVal.s v) →
        ¬(jsLower v = "" ∨ (jsLower v).length < 10) →
        alookup (catchSt (P2v4.procId e s i)).addresses (jsLower v) =
          some (P2v4.mkRecord e t))
    ∧ US1.isDigital "Passport" = false
    ∧ P2v4.isDigital "Passport" = false := by
  refine ⟨fun t => rfl, fun t => rfl, ?_, ?_, ?_, ?_, by decide, by decide⟩
  · rintro e s ⟨ty, num⟩ t ht hd
    simp only at ht
    subst ht
    simp [US1.procId, hd]
  · rintro e s ⟨ty, num⟩ t ht hd
    simp only at ht
    subst ht
    rcases num with _ | nv
    · simp [US1.procId, catchSt, hd]
    · rcases nv with v | k2
      · by_cases hshort : jsLower v = "" ∨ (jsLower v).length < 10
        · simp [US1.procId, catchSt, hd, hshort]
        · simp [US1.procId, catchSt, hd, hshort]
      · by_cases hz : k2 = 0 <;> simp [US1.procId, catchSt, hd, hz]
  · rintro e s ⟨ty, num⟩ t ht hd
    simp only at ht
    subst ht
    simp [P2v4.procId, hd]
  · rintro e s ⟨ty, num⟩ t v ht hd hv hval
    simp only at ht hv
    subst ht
    subst hv
    rw [P2v4.p2_procId_addr]
    rw [show P2v4.idCand e ⟨some (JVal.s t), some (JVal.s v)⟩ =
          some (jsLower v, P2v4.mkRecord e t) from by
      simp [P2v4.idCand, hd, hval]]
    simp [insCand, alookup_insertJS]

/-- C2 amended witness: a "Passport" identifier leaves the US1 and P2v4
states unchanged. -/
theorem c2_classification_amended_witness :
    US1.procId entGood US1.initSt
        ⟨some (JVal.s "Passport"), some (JVal.s "0xabc1234567")⟩ =
      Except.ok US1.initSt
    ∧ (catchSt (US1.procId entGood US1.initSt
        ⟨some (JVal.s "Digital Currency Address - XBT"),
         some (JVal.s "0xabc1234567")⟩)).totalDC = US1.initSt.totalDC + 1 :=
  ⟨c2_classification_amended.2.2.1 entGood US1.initSt _ "Passport" rfl (by decide),
   c2_classification_amended.2.2.2.1 entGood US1.initSt _
     "Digital Currency Address - XBT" rfl (by decide)⟩

/-- C3: address keys are unique in the output mapping and each cited
revision follows exactly one collision policy, never a mixture: in the
first update-sanctions.js revision the lookup of any key equals the record
of the last accepted candidate for that key in document order
(last-write-wins), while in part_001 the per-address record's `entries`
list holds exactly the accepted candidates for that key, in order — one
element per contributing candidate. -/
theorem c3_collision_policy :
    (∀ d : List US1.Entry, (alKeys (US1.run d).addresses).Nodup)
    ∧ (∀ (d : List US1.Entry) (k : String),
        alookup (US1.run d).addresses k = lastLookup (US1.docCands d) k)
    ∧ (∀ d : List P1.Entry, (alKeys (P1.run d).addresses).Nodup)
    ∧ (∀ (d : List P1.Entry) (k : String),
        entriesAt (P1.run d).addresses k = (P1.docCands d).filterMap (pickKey k)) :=
  ⟨US1.u1_run_nodup, US1.run_lookup, P1.p1_run_nodup, P1.run_entriesAt⟩

/-- C4 counterexample: the claim says every record carries `date` and
`reason` fields and that `program` falls back to "Not specified", but in
the first update-sanctions.js revision (lines 86-91) the stored record of
an entity with no program list has `program` equal to the empty string and
its object literal has no `date` or `reason` key at all. -/
theorem c4_counterexample :
    (alookup (US1.run [entNoProgram]).addresses "bc1qabc123456").map US1.Record.program
      = some ""
    ∧ "" ≠ "Not specified"
    ∧ "date" ∉ US1.Record.keys
    ∧ "reason" ∉ US1.Record.keys := by
  decide

/-- C4 amended: in part_003 every stored record has exactly the keys
`entity`, `program`, `date`, `reason`, `type`, with `program` joining the
program list and falling back to "Not specified", `date` read from the
nested publishInformation.publishDate with fallback "Date not specified",
and `reason` read from remarks with fallback "Listed on OFAC SDN List";
the first update-sanctions.js revision instead stores only `entity`,
`program`, `type`, `uid`, and its `program` falls back to the empty
string. -/
theorem c4_record_fields_amended :
    P3.Record.keys = ["entity", "program", "date", "reason", "type"]
    ∧ (∀ (e : P3.Entry) (t : String), e.programs = none →
        (P3.mkRecord e t).program = "Not specified")
    ∧ (∀ (e : P3.Entry) (t : String) (l : List String),
        e.programs = some (ArrOr.many l) → (P3.mkRecord e t).program = joinComma l)
    ∧ (∀ (e : P3.Entry) (t : String), e.publishInformation = none →
        (P3.mkRecord e t).date = "Date not specified")
    ∧ (∀ (e : P3.Entry) (t d0 : String),
        e.publishInformation = some ⟨some d0⟩ → d0 ≠ "" →
        (P3.mkRecord e t).date = d0)
    ∧ (∀ (e : P3.Entry) (t : String), e.remarks = none →
        (P3.mkRecord e t).reason = "Listed on OFAC SDN List")
    ∧ (∀ (e : P3.Entry) (t r : String), e.remarks = some r → r ≠ "" →
        (P3.mkRecord e t).reason = r)
    ∧ US1.Record.keys = ["entity", "program", "type", "uid"]
    ∧ (∀ (e : US1.Entry) (t : String), e.programList = none →
        (US1.mkRecord e t).program = "") := by
  refine ⟨rfl, ?_, ?_, ?_, ?_, ?_, ?_, rfl, ?_⟩
  · intro e t h; simp [P3.mkRecord, P3.programString, h]
  · intro e t l h; simp [P3.mkRecord, P3.programString, h]
  · intro e t h; simp [P3.mkRecord, jsOr, h]
  · intro e t d0 h hne; simp [P3.mkRecord, jsOr, h, hne]
  · intro e t h; simp [P3.mkRecord, jsOr, h]
  · intro e t r h hne; simp [P3.mkRecord, jsOr, h, hne]
  · intro e t h; simp [US1.mkRecord, h, joinComma]

/-- C4 amended witness: the fallbacks evaluated on a concrete entity with
no programs, no publish information and no remarks. -/
theorem c4_record_fields_amended_witness :
    (P3.mkRecord ⟨none, some "Lazarus Group", none, none, none, none⟩ "T").program
      = "Not specified"
    ∧ (P3.mkRecord ⟨none, some "Lazarus Group", none, none, none, none⟩ "T").date
      = "Date not specified"
    ∧ (P3.mkRecord ⟨none, some "Lazarus Group", none, none, none, none⟩ "T").reason
      = "Listed on OFAC SDN List" :=
  ⟨c4_record_fields_amended.2.1 _ "T" rfl,
   c4_record_fields_amended.2.2.2.1 _ "T" rfl,
   c4_record_fields_amended.2.2.2.2.2.1 _ "T" rfl⟩

/-- C5: malformed entities do not abort the run: in the first
update-sanctions.js revision and in part_003 the processed-entities
counter is incremented before the per-entry try block, so it always
reaches the document's entity count; the per-entry catch records the
failing entry's index, and entities after a malformed one are still
processed (entBad's numeric type-label throws, yet entGood after it still
yields its address). -/
theorem c5_malformed_continue :
    (∀ d : List US1.Entry, (US1.run d).processed = d.length)
    ∧ (∀ d : List P3.Entry, (P3.run d).current = d.length)
    ∧ (US1.run [entBad, entGood]).processed = 2
    ∧ (US1.run [entBad, entGood]).errorLog = [1]
    ∧ (alookup (US1.run [entBad, entGood]).addresses "0xabc1234567").isSome = true :=
  ⟨US1.u1_run_processed, P3.run_current, by decide, by decide, by decide⟩

/-- C6 counterexample: the claim says a document missing the top-level
entity list is fatal (non-zero exit, nothing written), but in the first
update-sanctions.js revision `result?.sdnList?.sdnEntry || []` turns the
missing list into an empty one: the update succeeds, the process exits 0
and the writer receives a snapshot with an empty addresses mapping. -/
theorem c6_counterexample :
    US1.update ⟨none⟩ "2026-02-03T04:05:06.000Z" =
      Except.ok (US1.updateSnap ⟨none⟩ "2026-02-03T04:05:06.000Z")
    ∧ exitCode (US1.update ⟨none⟩ "2026-02-03T04:05:06.000Z") = 0
    ∧ (US1.updateSnap ⟨none⟩ "2026-02-03T04:05:06.000Z").addresses = []
    ∧ (US1.updateSnap ⟨none⟩ "2026-02-03T04:05:06.000Z").metadata.totalAddresses = 0 := by
  exact ⟨rfl, rfl, by decide, by decide⟩

/-- C6 amended: part_003 is fatal exactly as the claim says — whenever the
entity list cannot be found it throws "Invalid XML structure", the process
exits 1 and no snapshot reaches the writer — while the first
update-sanctions.js revision treats a missing entity list as empty and
always hands the writer a snapshot. -/
theorem c6_fatal_structure_amended :
    (∀ (r : Option P3.Xml3) (t : String), P3.entriesOpt r = none →
        P3.update r t = Except.error "Invalid XML structure"
        ∧ exitCode (P3.update r t) = 1)
    ∧ (∀ (px : US1.Xml1) (t : String),
        US1.update px t = Except.ok (US1.updateSnap px t))
    ∧ US1.entriesOf ⟨none⟩ = [] := by
  refine ⟨?_, fun px t => rfl, rfl⟩
  intro r t h
  unfold P3.update P3.fetch
  rw [h]
  exact ⟨rfl, rfl⟩

/-- C6 amended witness: the fatal path evaluated on the absent parse
result. -/
theorem c6_fatal_structure_amended_witness :
    P3.update none "2026-02-03T04:05:06.000Z" =
      Except.error "Invalid XML structure"
    ∧ exitCode (P3.update none "2026-02-03T04:05:06.000Z") = 1 :=
  c6_fatal_structure_amended.1 none "2026-02-03T04:05:06.000Z" rfl

/-- C7: the pipeline is a deterministic function of the parsed document:
the run timestamp flows only into `metadata.lastUpdated`, so two runs on
the same document produce the same addresses mapping, the same
totalAddresses counter, and metadata differing only in the timestamp. -/
theorem c7_deterministic :
    ∀ (px : US1.Xml1) (t₁ t₂ : String),
      (US1.updateSnap px t₁).addresses = (US1.updateSnap px t₂).addresses
      ∧ (US1.updateSnap px t₁).metadata.totalAddresses =
          (US1.updateSnap px t₂).metadata.totalAddresses
      ∧ { (US1.updateSnap px t₁).metadata with lastUpdated := t₂ } =
          (US1.updateSnap px t₂).metadata
      ∧ (US1.updateSnap px t₁).metadata.lastUpdated = t₁ :=
  fun px t₁ t₂ => ⟨rfl, rfl, rfl, rfl⟩

/-- C8: `metadata.totalAddresses` equals the number of keys of the output
addresses mapping (whose keys are pairwise distinct), and a document with
an empty entity list yields an empty mapping with totalAddresses 0. -/
theorem c8_total_addresses :
    (∀ (px : US1.Xml1) (t : String),
      (US1.updateSnap px t).metadata.totalAddresses =
        (alKeys (US1.updateSnap px t).addresses).length
      ∧ (alKeys (US1.updateSnap px t).addresses).Nodup)
    ∧ (∀ t : String,
      (US1.updateSnap ⟨some ⟨some []⟩⟩ t).addresses = []
      ∧ (US1.updateSnap ⟨some ⟨some []⟩⟩ t).metadata.totalAddresses = 0) :=
  ⟨fun px t => ⟨rfl, US1.u1_run_nodup (US1.entriesOf px)⟩,
   fun t => ⟨rfl, rfl⟩⟩

/-- C9 counterexample: the claim says the display name prefers lastName,
but in the first update-sanctions.js revision an entity with firstName
"John" and lastName "Doe" is stored with entity "John Doe" (the
`firstName lastName` template), not "Doe". -/
theorem c9_counterexample :
    (alookup (US1.run [entBothNames]).addresses "0x9999999999").map US1.Record.entity
      = some "John Doe"
    ∧ "John Doe" ≠ "Doe" := by
  decide

/-- C9 amended: part_003 builds the display name exactly as the claim
says (lastName, else firstName, else "Unknown Entity"); the first
update-sanctions.js revision instead prefers firstName, rendering
`firstName lastName` (trimmed) when firstName is non-empty.  The three
single-field cases of the claim hold in both revisions: only a lastName
uses the lastName, only a firstName uses the firstName (after the
record-level trim in US1), and neither yields "Unknown Entity". -/
theorem c9_display_name_amended :
    (∀ (e : P3.Entry) (l : String), e.lastName = some l → l ≠ "" →
        P3.entityName e = l)
    ∧ (∀ (e : P3.Entry) (f : String), e.lastName = none → e.firstName = some f →
        f ≠ "" → P3.entityName e = f)
    ∧ (∀ e : P3.Entry, e.lastName = none → e.firstName = none →
        P3.entityName e = "Unknown Entity")
    ∧ (∀ (e : US1.Entry) (l : String), e.firstName = none → e.lastName = some l →
        l ≠ "" → US1.entityName e = l)
    ∧ (∀ (e : US1.Entry) (f : String), e.firstName = some f → f ≠ "" →
        e.lastName = none → jsTrim (US1.entityName e) = jsTrim f)
    ∧ (∀ e : US1.Entry, e.firstName = none → e.lastName = none →
        US1.entityName e = "Unknown Entity")
    ∧ (∀ (e : US1.Entry) (f l : String), e.firstName = some f → f ≠ "" →
        e.lastName = some l → l ≠ "" → US1.entityName e = f ++ " " ++ l) := by
  refine ⟨?_, ?_, ?_, ?_, ?_, ?_, ?_⟩
  · intro e l h hne; simp [P3.entityName, jsOr, h, hne]
  · intro e f h hf hne; simp [P3.entityName, jsOr, h, hf, hne]
  · intro e h hf; simp [P3.entityName, jsOr, h, hf]
  · intro e l h hl hne; simp [US1.entityName, jsOr, jsTruthy, h, hl, hne]
  · intro e f h hne hl
    rw [show US1.entityName e = f ++ " " ++ "" from by
      simp [US1.entityName, jsOr, jsTruthy, h, hne, hl]]
    rw [String.append_empty, jsTrim_append_space]
  · intro e h hl; simp [US1.entityName, jsOr, jsTruthy, h, hl]
  · intro e f l h hf hl hlne
    simp [US1.entityName, jsOr, jsTruthy, h, hf, hl, hlne]

/-- C9 amended witness: the name rules evaluated on concrete entities. -/
theorem c9_display_name_amended_witness :
    P3.entityName ⟨some "John", some "Doe", none, none, none, none⟩ = "Doe"
    ∧ US1.entityName ⟨1, none, none, none, none⟩ = "Unknown Entity" :=
  ⟨c9_display_name_amended.1 _ "Doe" rfl (by decide),
   c9_display_name_amended.2.2.2.2.2.1 _ rfl rfl⟩

/-- C10: program normalization is shape-insensitive: a program list given
as a single scalar label resolves to the same joined `program` string as
the one-element list form — in part_002's fourth revision (which
normalizes through ensureArray before joining, lines 531-532) and in the
second update-sanctions.js revision (lines 198-199 and 212). -/
theorem c10_program_scalar_list :
    ∀ s : String,
      P2v4.programJoin (some (ArrOr.one s)) = P2v4.programJoin (some (ArrOr.many [s]))
      ∧ US2.programResolved (some (ArrOr.one s)) =
          US2.programResolved (some (ArrOr.many [s])) :=
  fun s => ⟨rfl, rfl⟩
